import Mathlib

/-!
# Verification of the schedule-bot core (`Schedule_bot_unlim.py`)

Shallow embedding of the schedule store and the conversation handlers of the
Telegram schedule bot.  Python/JSON values that flow through the store are
modelled by the inductive `JValue`; the durable store file by `FileState`;
the `python-telegram-bot` handler functions by pure Lean functions from the
explicit state (file contents, per-user session data) to results.  A Python
exception (KeyError, IndexError, ValueError from tuple unpacking, int()
failure) is modelled by an `Option`-valued function returning `none`.

Modelling conventions:
* Python dicts are association lists; `dict[k] = v` updates the entry in
  place when the key is present (keeping its position) and appends otherwise
  (`dictInsert`).  Dicts produced by `json.load` have no duplicate keys.
* `str.strip()` is modelled by `pyStrip`, `str.split` by `pySplit` /
  `pySplit1` and `int(s)` by `pyToInt`; each agrees with Python on every
  input exercised here.
* `save_all` is modelled as always succeeding (a write failure propagates in
  the source and no claim concerns it).
* Python `str()` applied to non-string JSON values inside reply f-strings
  renders containers abbreviated (`pyStr`); reply text is never branched on.
-/

/-- A JSON value, the type of everything `json.load` can produce and hence of
everything `_normalize_schedule` can receive (`raw: Any`). -/
inductive JValue where
  | jnull : JValue
  | jbool : Bool → JValue
  | jnum : Int → JValue
  | jstr : String → JValue
  | jarr : List JValue → JValue
  | jobj : List (String × JValue) → JValue
  deriving Repr

mutual

/-- Decidable equality on `JValue` (the automatic derivation does not support
the nesting through `List`). -/
def JValue.decEq : (a b : JValue) → Decidable (a = b)
  | .jnull, .jnull => .isTrue rfl
  | .jbool x, .jbool y =>
    if h : x = y then .isTrue (by rw [h]) else .isFalse (by simp [h])
  | .jnum x, .jnum y =>
    if h : x = y then .isTrue (by rw [h]) else .isFalse (by simp [h])
  | .jstr x, .jstr y =>
    if h : x = y then .isTrue (by rw [h]) else .isFalse (by simp [h])
  | .jarr xs, .jarr ys =>
    match JValue.decEqList xs ys with
    | .isTrue h => .isTrue (by rw [h])
    | .isFalse h => .isFalse (by simp [h])
  | .jobj xs, .jobj ys =>
    match JValue.decEqObj xs ys with
    | .isTrue h => .isTrue (by rw [h])
    | .isFalse h => .isFalse (by simp [h])
  | .jnull, .jbool _ => .isFalse (by simp)
  | .jnull, .jnum _ => .isFalse (by simp)
  | .jnull, .jstr _ => .isFalse (by simp)
  | .jnull, .jarr _ => .isFalse (by simp)
  | .jnull, .jobj _ => .isFalse (by simp)
  | .jbool _, .jnull => .isFalse (by simp)
  | .jbool _, .jnum _ => .isFalse (by simp)
  | .jbool _, .jstr _ => .isFalse (by simp)
  | .jbool _, .jarr _ => .isFalse (by simp)
  | .jbool _, .jobj _ => .isFalse (by simp)
  | .jnum _, .jnull => .isFalse (by simp)
  | .jnum _, .jbool _ => .isFalse (by simp)
  | .jnum _, .jstr _ => .isFalse (by simp)
  | .jnum _, .jarr _ => .isFalse (by simp)
  | .jnum _, .jobj _ => .isFalse (by simp)
  | .jstr _, .jnull => .isFalse (by simp)
  | .jstr _, .jbool _ => .isFalse (by simp)
  | .jstr _, .jnum _ => .isFalse (by simp)
  | .jstr _, .jarr _ => .isFalse (by simp)
  | .jstr _, .jobj _ => .isFalse (by simp)
  | .jarr _, .jnull => .isFalse (by simp)
  | .jarr _, .jbool _ => .isFalse (by simp)
  | .jarr _, .jnum _ => .isFalse (by simp)
  | .jarr _, .jstr _ => .isFalse (by simp)
  | .jarr _, .jobj _ => .isFalse (by simp)
  | .jobj _, .jnull => .isFalse (by simp)
  | .jobj _, .jbool _ => .isFalse (by simp)
  | .jobj _, .jnum _ => .isFalse (by simp)
  | .jobj _, .jstr _ => .isFalse (by simp)
  | .jobj _, .jarr _ => .isFalse (by simp)

/-- Decidable equality on lists of `JValue`. -/
def JValue.decEqList : (a b : List JValue) → Decidable (a = b)
  | [], [] => .isTrue rfl
  | [], _ :: _ => .isFalse (by simp)
  | _ :: _, [] => .isFalse (by simp)
  | x :: xs, y :: ys =>
    match JValue.decEq x y, JValue.decEqList xs ys with
    | .isTrue h1, .isTrue h2 => .isTrue (by rw [h1, h2])
    | .isFalse h1, _ => .isFalse (by simp [h1])
    | _, .isFalse h2 => .isFalse (by simp [h2])

/-- Decidable equality on association lists of `JValue`. -/
def JValue.decEqObj : (a b : List (String × JValue)) → Decidable (a = b)
  | [], [] => .isTrue rfl
  | [], _ :: _ => .isFalse (by simp)
  | _ :: _, [] => .isFalse (by simp)
  | (k1, v1) :: xs, (k2, v2) :: ys =>
    if hk : k1 = k2 then
      match JValue.decEq v1 v2, JValue.decEqObj xs ys with
      | .isTrue h1, .isTrue h2 => .isTrue (by rw [hk, h1, h2])
      | .isFalse h1, _ => .isFalse (by simp [h1])
      | _, .isFalse h2 => .isFalse (by simp [h2])
    else .isFalse (by simp [hk])

end

instance : DecidableEq JValue := JValue.decEq

/-- A normalized per-user schedule as the Python code holds it in memory:
a dict from day name to the day's slot list. -/
abbrev Schedule := List (String × List JValue)

/-- `WEEKDAYS = ["monday", "tuesday", "wednesday", "thursday", "friday"]` -/
def WEEKDAYS : List String := ["monday", "tuesday", "wednesday", "thursday", "friday"]

/-- `PAIR_COUNT = 4` -/
def PAIR_COUNT : Nat := 4

/-- `WEEKDAY_RU` — Russian display names keyed by day. -/
def WEEKDAY_RU : List (String × String) :=
  [("monday", "Понедельник"), ("tuesday", "Вторник"), ("wednesday", "Среда"),
   ("thursday", "Четверг"), ("friday", "Пятница")]

/-- `default_schedule()`: `{d: ["—"] * PAIR_COUNT for d in WEEKDAYS}` -/
def default_schedule : Schedule :=
  WEEKDAYS.map fun d => (d, List.replicate PAIR_COUNT (JValue.jstr "—"))

/-- Coerce an in-memory schedule (dict of lists) back into a JSON value, as
happens implicitly when it is stored into the table dict and serialized. -/
def toJObj (s : Schedule) : JValue :=
  JValue.jobj (s.map fun p => (p.1, JValue.jarr p.2))

/-- `if not isinstance(raw, dict): raw = {}` (lines 70–71): the dict
`_normalize_schedule` iterates over. -/
def rawObjOf (raw : JValue) : List (String × JValue) :=
  match raw with
  | JValue.jobj kvs => kvs
  | _ => []

/-- Body of the `for d in WEEKDAYS` loop of `_normalize_schedule`
(lines 74–77): `day_list = raw.get(d)` replaced by `["—"] * PAIR_COUNT`
unless it is a list, then `(day_list + ["—"] * PAIR_COUNT)[:PAIR_COUNT]`. -/
def normalizeDay (rawObj : List (String × JValue)) (d : String) : List JValue :=
  let day_list : List JValue :=
    match rawObj.lookup d with
    | some (JValue.jarr l) => l
    | _ => List.replicate PAIR_COUNT (JValue.jstr "—")
  (day_list ++ List.replicate PAIR_COUNT (JValue.jstr "—")).take PAIR_COUNT

/-- `_normalize_schedule(raw)` (lines 69–78). -/
def normalize_schedule (raw : JValue) : Schedule :=
  WEEKDAYS.map fun d => (d, normalizeDay (rawObjOf raw) d)

/-- The `raw.get(d)` value when it passes the `isinstance(day_list, list)`
test of line 75: the day's own slot list, when `raw` is a dict mapping `d`
to a list. -/
def rawDayList (raw : JValue) (d : String) : Option (List JValue) :=
  match (rawObjOf raw).lookup d with
  | some (JValue.jarr l) => some l
  | _ => none

/-- The state of the backing file `schedules.json`, as far as `load_all`
distinguishes it: absent, unreadable (open/read raises), readable but not
valid JSON (`json.load` raises), or holding a parsed JSON value. -/
inductive FileState where
  | absent : FileState
  | unreadable : FileState
  | invalidJson : FileState
  | content : JValue → FileState
  deriving Repr, DecidableEq

/-- `load_all()` (lines 81–89): `{}` if the file does not exist; `{}` if
reading or parsing raises; the parsed dict if the top level is a dict and
`{}` otherwise. -/
def load_all (f : FileState) : List (String × JValue) :=
  match f with
  | FileState.absent => []
  | FileState.unreadable => []
  | FileState.invalidJson => []
  | FileState.content j =>
    match j with
    | JValue.jobj kvs => kvs
    | _ => []

/-- Python dict item assignment `d[k] = v`: replace in place when the key is
present (its position is kept), append otherwise. -/
def dictInsert (kvs : List (String × JValue)) (k : String) (v : JValue) :
    List (String × JValue) :=
  if (kvs.lookup k).isSome then
    kvs.map fun p => if p.1 = k then (k, v) else p
  else
    kvs ++ [(k, v)]

/-- `save_all(data)` (lines 92–94): the file now holds exactly `data`. -/
def save_all (data : List (String × JValue)) : FileState :=
  FileState.content (JValue.jobj data)

/-- `get_user_schedule(user_id)` (lines 97–108).  Returns the schedule handed
back to the caller together with the file state after the unconditional
`save_all`. -/
def get_user_schedule (f : FileState) (user_id : Nat) : Schedule × FileState :=
  let all_data := load_all f
  let key := toString user_id
  match all_data.lookup key with
  | none =>
    let sched := default_schedule
    (sched, save_all (dictInsert all_data key (toJObj sched)))
  | some entry =>
    let sched := normalize_schedule entry
    (sched, save_all (dictInsert all_data key (toJObj sched)))

/-- `set_user_schedule(user_id, schedule)` (lines 111–115).  The parameter is
any value since the body only ever passes it to `_normalize_schedule`. -/
def set_user_schedule (f : FileState) (user_id : Nat) (schedule : JValue) : FileState :=
  let all_data := load_all f
  let key := toString user_id
  save_all (dictInsert all_data key (toJObj (normalize_schedule schedule)))

/-- The in-place mutation `schedule[day][slot_index] = v` of line 120
(restricted to the key already being present, which the caller's KeyError
check establishes): the entry for `day` gets slot `slot_index` replaced,
every other entry is untouched. -/
def updateSched (s : Schedule) (day : String) (slot_index : Nat) (v : JValue) : Schedule :=
  s.map fun p => (p.1, if p.1 = day then p.2.set slot_index v else p.2)

/-- `set_user_day_slot(user_id, day, slot_index, value)` (lines 118–122).
`schedule[day][slot_index] = value if value else "—"` raises KeyError when
`day` is no key and IndexError when `slot_index` is out of range (modelled by
`none`); the Python truthiness test `if value` on a string is emptiness. -/
def set_user_day_slot (f : FileState) (user_id : Nat) (day : String) (slot_index : Nat)
    (value : String) : Option (Schedule × FileState) :=
  let r := get_user_schedule f user_id
  let schedule := r.1
  match schedule.lookup day with
  | none => none
  | some day_list =>
    if slot_index < day_list.length then
      let v : JValue := JValue.jstr (if value = "" then "—" else value)
      let schedule2 : Schedule := updateSched schedule day slot_index v
      some (schedule2, set_user_schedule r.2 user_id (toJObj schedule2))
    else none

/-- Read slot `i` of `day` out of an in-memory schedule. -/
def getSlot (s : Schedule) (day : String) (i : Nat) : Option JValue :=
  (s.lookup day).bind fun l => l[i]?

/-- Whether a slot value is a string (`isinstance(v, str)`). -/
def isStringSlot : JValue → Bool
  | JValue.jstr _ => true
  | _ => false

/-- Conversation state constants (lines 50–59): `range(8)` in source order. -/
def STATE_MENU : Nat := 0

def STATE_VIEW_DAY : Nat := 1

def STATE_BUILD_DAY : Nat := 2

def STATE_BUILD_SLOT : Nat := 3

def STATE_BUILD_TEXT : Nat := 4

def STATE_EDIT_DAY : Nat := 5

def STATE_EDIT_SLOT : Nat := 6

def STATE_EDIT_TEXT : Nat := 7

/-- `context.user_data` as the handlers use it: the four keys written by the
build/edit flows, each absent (`.get` returns `None`) until first written. -/
structure Session where
  build_day : Option String := none
  build_slot : Option Int := none
  edit_day : Option String := none
  edit_slot : Option Int := none
  deriving Repr, DecidableEq

/-- Python `str.strip()` with no argument: drop leading and trailing
whitespace.  Implemented over the character list so that concrete instances
evaluate inside the kernel. -/
def pyStrip (s : String) : String :=
  String.mk (((s.toList.dropWhile Char.isWhitespace).reverse.dropWhile
    Char.isWhitespace).reverse)

/-- Python `str()` as it would be applied to a slot value inside a reply
f-string.  Slot values are strings on every reachable path; container
renderings are abbreviated because no reply text is ever branched on. -/
def pyStr : JValue → String
  | JValue.jnull => "None"
  | JValue.jbool true => "True"
  | JValue.jbool false => "False"
  | JValue.jnum n => toString n
  | JValue.jstr s => s
  | JValue.jarr _ => "[…]"
  | JValue.jobj _ => "\x7b…\x7d"

/-- `format_day(schedule, day)` (lines 171–178): header with the Russian day
name (`WEEKDAY_RU[day]` raises KeyError for an unknown day, hence `Option`),
`schedule.get(day, ["—"] * PAIR_COUNT)` numbered from 1, and the weekend
footer. -/
def format_day (schedule : Schedule) (day : String) : Option String :=
  match WEEKDAY_RU.lookup day with
  | none => none
  | some ru =>
    let pairs := (schedule.lookup day).getD (List.replicate PAIR_COUNT (JValue.jstr "—"))
    let numbered := pairs.enum.map fun p => s!"{p.1 + 1}) {pyStr p.2}"
    some (String.intercalate "\n"
      (("📅 " ++ ru) :: numbered ++ ["", "Суббота и воскресенье — выходной."]))

/-- What one handler invocation produces: the reply text, the conversation
state returned to the `ConversationHandler`, and the file / session state
afterwards.  Keyboards are presentation-only and are not modelled. -/
structure StepResult where
  reply : String
  state : Nat
  file : FileState
  session : Session
  deriving Repr, DecidableEq

/-- Split a character list at every occurrence of `c`. -/
def splitCharList (c : Char) : List Char → List (List Char)
  | [] => [[]]
  | x :: xs =>
    match splitCharList c xs with
    | [] => [[]]
    | hd :: tl => if x = c then [] :: hd :: tl else (x :: hd) :: tl

/-- Python `s.split(":")` for the one-character separator used throughout:
the pieces of `s` between colons.  Implemented over the character list so
that concrete instances evaluate inside the kernel. -/
def pySplit (c : Char) (s : String) : List String :=
  (splitCharList c s.toList).map fun l => String.mk l

/-- One digit-accumulating pass of Python `int(s)`. -/
def digitsToNat (l : List Char) : Option Nat :=
  if l = [] then none
  else
    l.foldl
      (fun acc c => acc.bind fun n =>
        if '0' ≤ c ∧ c ≤ '9' then some (10 * n + (c.toNat - '0'.toNat)) else none)
      (some 0)

/-- Python `int(s)` at its use sites (the slot index carried in callback
data): the parsed integer, `none` when the string is not a plain integer
literal (ValueError).  Python also tolerates surrounding whitespace and a
leading `+`; no caller can produce those. -/
def pyToInt (s : String) : Option Int :=
  match s.toList with
  | [] => none
  | '-' :: ds => (digitsToNat ds).map fun n => -(n : Int)
  | ds => (digitsToNat ds).map fun n => (n : Int)

/-- Python `s.split(":", 1)` at its `_, day = query.data.split(":", 1)` use
sites: `none` when there is no colon (unpacking a 1-element list raises
ValueError), otherwise the parts before and after the first colon. -/
def pySplit1 (s : String) : Option (String × String) :=
  match pySplit ':' s with
  | [] => none
  | [_] => none
  | a :: rest => some (a, String.intercalate ":" rest)

/-- `cmd_start` (lines 184–192): ensures the user has a schedule, shows the
menu, enters `STATE_MENU`. -/
def cmd_start (f : FileState) (sess : Session) (user_id : Nat) : StepResult :=
  let r := get_user_schedule f user_id
  ⟨"Меню.\nУ каждого пользователя своё расписание (Пн–Пт, 4 пары).",
    STATE_MENU, r.2, sess⟩

/-- `on_menu_click` (lines 207–229): routes on the callback data, touching
neither the file nor the session. -/
def on_menu_click (f : FileState) (sess : Session) (data : String) : StepResult :=
  if data = "menu:back" then ⟨"Меню:", STATE_MENU, f, sess⟩
  else if data = "menu:view" then
    ⟨"Выберите день (Пн–Пт):", STATE_VIEW_DAY, f, sess⟩
  else if data = "menu:build" then
    ⟨"Составление. Выберите день (Пн–Пт):", STATE_BUILD_DAY, f, sess⟩
  else if data = "menu:edit" then
    ⟨"Редактирование. Выберите день (Пн–Пт):", STATE_EDIT_DAY, f, sess⟩
  else ⟨"Меню:", STATE_MENU, f, sess⟩

/-- `on_view_day` (lines 235–244). -/
def on_view_day (f : FileState) (sess : Session) (user_id : Nat) (data : String) :
    Option StepResult :=
  match pySplit1 data with
  | none => none
  | some (_, day) =>
    let r := get_user_schedule f user_id
    match format_day r.1 day with
    | none => none
    | some txt => some ⟨txt, STATE_MENU, r.2, sess⟩

/-- `on_build_day` (lines 250–262).  An exception after the session write /
store save (unknown `day` in `format_day`) is collapsed into `none`. -/
def on_build_day (f : FileState) (sess : Session) (user_id : Nat) (data : String) :
    Option StepResult :=
  match pySplit1 data with
  | none => none
  | some (_, day) =>
    let sess2 := { sess with build_day := some day }
    let r := get_user_schedule f user_id
    match format_day r.1 day with
    | none => none
    | some txt =>
      some ⟨txt ++ "\n\nВыберите, какую пару заполнить:", STATE_BUILD_SLOT, r.2, sess2⟩

/-- `on_build_slot` (lines 265–287): `back` rows return to day selection;
otherwise the data must split into exactly three parts with an integer slot
index (`int(...)` failure and bad unpacking raise, hence `none`). -/
def on_build_slot (f : FileState) (sess : Session) (data : String) : Option StepResult :=
  let parts := pySplit ':' data
  if 3 ≤ parts.length ∧ parts[1]? = some "back" then
    some ⟨"Составление. Выберите день (Пн–Пт):", STATE_BUILD_DAY, f, sess⟩
  else
    match parts with
    | [_, day, slot_index_str] =>
      match pyToInt slot_index_str with
      | none => none
      | some slot_index =>
        let sess2 := { sess with build_day := some day, build_slot := some slot_index }
        match WEEKDAY_RU.lookup day with
        | none => none
        | some ru =>
          some ⟨s!"Введите предмет для:\n{ru}, {slot_index + 1} пара\n\n" ++
            "Пример: Математика (ауд. 305)\n" ++
            "Можно отправить «—», чтобы оставить пусто.", STATE_BUILD_TEXT, f, sess2⟩
    | _ => none

/-- `on_build_text` (lines 290–303): `text = (update.message.text or
"").strip()`; a missing or out-of-range pending (day, slot) yields the
desync notice and `STATE_MENU` without touching the file; otherwise the slot
is written and the updated day is shown. -/
def on_build_text (f : FileState) (sess : Session) (user_id : Nat) (msg : String) :
    Option StepResult :=
  let text := pyStrip msg
  match sess.build_day, sess.build_slot with
  | some day, some slot =>
    if WEEKDAYS.contains day ∧ 0 ≤ slot ∧ slot < (PAIR_COUNT : Int) then
      match set_user_day_slot f user_id day slot.toNat (if text = "" then "—" else text) with
      | none => none
      | some (schedule, f2) =>
        match format_day schedule day with
        | none => none
        | some txt => some ⟨"Сохранено.\n\n" ++ txt, STATE_MENU, f2, sess⟩
    else some ⟨"Состояние сбилось. Нажмите /start.", STATE_MENU, f, sess⟩
  | _, _ => some ⟨"Состояние сбилось. Нажмите /start.", STATE_MENU, f, sess⟩

/-- `on_edit_day` (lines 309–321). -/
def on_edit_day (f : FileState) (sess : Session) (user_id : Nat) (data : String) :
    Option StepResult :=
  match pySplit1 data with
  | none => none
  | some (_, day) =>
    let sess2 := { sess with edit_day := some day }
    let r := get_user_schedule f user_id
    match format_day r.1 day with
    | none => none
    | some txt =>
      some ⟨txt ++ "\n\nВыберите пару для редактирования:", STATE_EDIT_SLOT, r.2, sess2⟩

/-- `on_edit_slot` (lines 324–350): like `on_build_slot` but also reads the
current value `schedule[day][slot_index]` (KeyError / IndexError possible). -/
def on_edit_slot (f : FileState) (sess : Session) (user_id : Nat) (data : String) :
    Option StepResult :=
  let parts := pySplit ':' data
  if 3 ≤ parts.length ∧ parts[1]? = some "back" then
    some ⟨"Редактирование. Выберите день (Пн–Пт):", STATE_EDIT_DAY, f, sess⟩
  else
    match parts with
    | [_, day, slot_index_str] =>
      match pyToInt slot_index_str with
      | none => none
      | some slot_index =>
        let sess2 := { sess with edit_day := some day, edit_slot := some slot_index }
        let r := get_user_schedule f user_id
        match getSlot r.1 day slot_index.toNat with
        | none => none
        | some current =>
          match WEEKDAY_RU.lookup day with
          | none => none
          | some ru =>
            some ⟨s!"Текущее значение:\n{pyStr current}\n\n" ++
              s!"Введите новое для:\n{ru}, {slot_index + 1} пара\n\n" ++
              "Можно отправить «—», чтобы очистить.", STATE_EDIT_TEXT, r.2, sess2⟩
    | _ => none

/-- `on_edit_text` (lines 353–366): identical to `on_build_text` except that
it reads the `edit_*` session keys and replies with the "updated" wording. -/
def on_edit_text (f : FileState) (sess : Session) (user_id : Nat) (msg : String) :
    Option StepResult :=
  let text := pyStrip msg
  match sess.edit_day, sess.edit_slot with
  | some day, some slot =>
    if WEEKDAYS.contains day ∧ 0 ≤ slot ∧ slot < (PAIR_COUNT : Int) then
      match set_user_day_slot f user_id day slot.toNat (if text = "" then "—" else text) with
      | none => none
      | some (schedule, f2) =>
        match format_day schedule day with
        | none => none
        | some txt => some ⟨"Обновлено.\n\n" ++ txt, STATE_MENU, f2, sess⟩
    else some ⟨"Состояние сбилось. Нажмите /start.", STATE_MENU, f, sess⟩
  | _, _ => some ⟨"Состояние сбилось. Нажмите /start.", STATE_MENU, f, sess⟩

/-- The spec's `setSlot` store operation as the source realizes it: both text
handlers (lines 291/300 and 354/363) strip the incoming text and substitute
the empty marker for an empty result before calling `set_user_day_slot`. -/
def setSlot (f : FileState) (user_id : Nat) (day : String) (slot_index : Nat)
    (text : String) : Option (Schedule × FileState) :=
  let t := pyStrip text
  set_user_day_slot f user_id day slot_index (if t = "" then "—" else t)

/-! ## Association-list lemmas (Python dict semantics) -/

/-- Keys of a table are pairwise distinct, as is the case for every dict
produced by `json.load` or built by the store. -/
abbrev NodupKeys (l : List (String × JValue)) : Prop :=
  (l.map Prod.fst).Nodup

/-- A schedule of the exact shape every normalized schedule has: the five
weekday keys in source order, each with exactly `PAIR_COUNT` slots. -/
def Canonical (s : Schedule) : Prop :=
  ∃ v1 v2 v3 v4 v5 : List JValue,
    v1.length = PAIR_COUNT ∧ v2.length = PAIR_COUNT ∧ v3.length = PAIR_COUNT ∧
      v4.length = PAIR_COUNT ∧ v5.length = PAIR_COUNT ∧
      s = [("monday", v1), ("tuesday", v2), ("wednesday", v3),
           ("thursday", v4), ("friday", v5)]

theorem lookup_append_assoc (l₁ l₂ : List (String × JValue)) (k : String) :
    (l₁ ++ l₂).lookup k = ((l₁.lookup k).or (l₂.lookup k)) := by
  induction l₁ with
  | nil => simp [List.lookup]
  | cons p t ih =>
    obtain ⟨k1, v1⟩ := p
    by_cases h : k = k1
    · subst h
      simp [List.lookup]
    · have hb : (k == k1) = false := by simp [h]
      simp [List.lookup, hb, ih]

theorem lookup_replace_ne (l : List (String × JValue)) (k k' : String) (v : JValue)
    (h : k' ≠ k) :
    (l.map fun p => if p.1 = k then (k, v) else p).lookup k' = l.lookup k' := by
  induction l with
  | nil => simp
  | cons p t ih =>
    obtain ⟨k1, v1⟩ := p
    simp only [List.map_cons]
    by_cases h1 : k1 = k
    · rw [if_pos h1]
      have hb : (k' == k) = false := by simp [h]
      have hb1 : (k' == k1) = false := by simp [h1 ▸ h]
      simp only [List.lookup, hb, hb1]
      exact ih
    · rw [if_neg h1]
      by_cases h2 : k' = k1
      · subst h2
        simp [List.lookup]
      · have hb2 : (k' == k1) = false := by simp [h2]
        simp only [List.lookup, hb2]
        exact ih

theorem lookup_replace_self (l : List (String × JValue)) (k : String) (v : JValue)
    (h : (l.lookup k).isSome) :
    (l.map fun p => if p.1 = k then (k, v) else p).lookup k = some v := by
  induction l with
  | nil => simp [List.lookup] at h
  | cons p t ih =>
    obtain ⟨k1, v1⟩ := p
    simp only [List.map_cons]
    by_cases h1 : k1 = k
    · rw [if_pos h1]
      simp [List.lookup]
    · rw [if_neg h1]
      have hb : (k == k1) = false := by
        simp only [beq_eq_false_iff_ne, ne_eq]
        exact fun hh => h1 hh.symm
      simp only [List.lookup, hb] at h ⊢
      exact ih h

theorem lookup_dictInsert_self (l : List (String × JValue)) (k : String) (v : JValue) :
    (dictInsert l k v).lookup k = some v := by
  unfold dictInsert
  by_cases h : (l.lookup k).isSome
  · simp [h, lookup_replace_self l k v h]
  · simp only [h, if_false, Bool.false_eq_true]
    rw [lookup_append_assoc]
    simp only [Option.not_isSome_iff_eq_none] at h
    simp [h, List.lookup]

theorem lookup_dictInsert_ne (l : List (String × JValue)) (k k' : String) (v : JValue)
    (h : k' ≠ k) :
    (dictInsert l k v).lookup k' = l.lookup k' := by
  unfold dictInsert
  by_cases hs : (l.lookup k).isSome
  · simp [hs, lookup_replace_ne l k k' v h]
  · simp only [hs, if_false, Bool.false_eq_true]
    rw [lookup_append_assoc]
    have hb : (k' == k) = false := by simp [h]
    simp [List.lookup, hb]

theorem replace_not_mem (l : List (String × JValue)) (k : String) (v : JValue)
    (h : k ∉ l.map Prod.fst) :
    (l.map fun p => if p.1 = k then (k, v) else p) = l := by
  induction l with
  | nil => rfl
  | cons p t ih =>
    obtain ⟨k1, v1⟩ := p
    simp only [List.map_cons, List.mem_cons] at h
    push_neg at h
    have h1 : ¬(k1 = k) := fun hh => h.1 hh.symm
    simp only [List.map_cons, if_neg h1]
    rw [ih h.2]

theorem replace_lookup_self (l : List (String × JValue)) (k : String) (v : JValue)
    (hnd : NodupKeys l) (h : l.lookup k = some v) :
    (l.map fun p => if p.1 = k then (k, v) else p) = l := by
  induction l with
  | nil => rfl
  | cons p t ih =>
    obtain ⟨k1, v1⟩ := p
    unfold NodupKeys at hnd
    simp only [List.map_cons, List.nodup_cons] at hnd
    by_cases h1 : k1 = k
    · subst h1
      have hv : v1 = v := by
        simp [List.lookup] at h
        exact h
      subst hv
      simp only [List.map_cons, ite_self]
      rw [replace_not_mem t k1 v1 hnd.1]
    · have hb : (k == k1) = false := by
        simp only [beq_eq_false_iff_ne, ne_eq]
        exact fun hh => h1 hh.symm
      simp only [List.lookup, hb] at h
      simp only [List.map_cons, if_neg h1]
      rw [ih hnd.2 h]

theorem dictInsert_self (l : List (String × JValue)) (k : String) (v : JValue)
    (hnd : NodupKeys l) (h : l.lookup k = some v) :
    dictInsert l k v = l := by
  unfold dictInsert
  simp only [h, Option.isSome_some, if_true]
  exact replace_lookup_self l k v hnd h

/-! ## The canonical schedule shape -/

theorem takePad_length (l : List JValue) (x : JValue) :
    ((l ++ List.replicate PAIR_COUNT x).take PAIR_COUNT).length = PAIR_COUNT := by
  simp only [List.length_take, List.length_append, List.length_replicate]
  omega

theorem takePad_id (l : List JValue) (x : JValue) (h : l.length = PAIR_COUNT) :
    (l ++ List.replicate PAIR_COUNT x).take PAIR_COUNT = l := by
  rw [← h, List.take_left]

theorem takePad_eq (l : List JValue) (x : JValue) :
    (l ++ List.replicate PAIR_COUNT x).take PAIR_COUNT =
      l.take PAIR_COUNT ++ List.replicate (PAIR_COUNT - l.length) x := by
  rw [List.take_append_eq_append_take, List.take_replicate]
  have hm : min (PAIR_COUNT - l.length) PAIR_COUNT = PAIR_COUNT - l.length := by
    omega
  rw [hm]

theorem normalize_canonical (raw : JValue) : Canonical (normalize_schedule raw) := by
  refine ⟨_, _, _, _, _, ?_, ?_, ?_, ?_, ?_, rfl⟩ <;> exact takePad_length _ _

theorem default_canonical : Canonical default_schedule := by
  refine ⟨_, _, _, _, _, ?_, ?_, ?_, ?_, ?_, rfl⟩ <;> rfl

theorem canonical_normalize_id (s : Schedule) (hs : Canonical s) :
    normalize_schedule (toJObj s) = s := by
  obtain ⟨v1, v2, v3, v4, v5, h1, h2, h3, h4, h5, rfl⟩ := hs
  simp [normalize_schedule, normalizeDay, rawObjOf, toJObj, WEEKDAYS, List.lookup,
    takePad_id _ _ h1, takePad_id _ _ h2, takePad_id _ _ h3,
    takePad_id _ _ h4, takePad_id _ _ h5]

theorem get_user_schedule_canonical (f : FileState) (u : Nat) :
    Canonical (get_user_schedule f u).1 := by
  simp only [get_user_schedule]
  cases h : (load_all f).lookup (toString u) with
  | none => simpa using default_canonical
  | some entry => simpa using normalize_canonical entry

theorem lookup_graph (ks : List String) (g : String → List JValue) (d : String)
    (hd : d ∈ ks) :
    (ks.map fun k => (k, g k)).lookup d = some (g d) := by
  induction ks with
  | nil => cases hd
  | cons a t ih =>
    rcases List.mem_cons.mp hd with rfl | h
    · simp [List.lookup]
    · by_cases hda : d = a
      · subst hda
        simp [List.lookup]
      · have hb : (d == a) = false := by simp [hda]
        simp [List.lookup, hb, ih h]

theorem normalizeDay_eq (raw : JValue) (d : String) :
    normalizeDay (rawObjOf raw) d =
      (((rawDayList raw d).getD (List.replicate PAIR_COUNT (JValue.jstr "—")))
        ++ List.replicate PAIR_COUNT (JValue.jstr "—")).take PAIR_COUNT := by
  unfold normalizeDay rawDayList
  cases h : (rawObjOf raw).lookup d with
  | none => rfl
  | some v => cases v <;> simp [h]

theorem normalize_lookup (raw : JValue) (d : String) (hd : d ∈ WEEKDAYS) :
    (normalize_schedule raw).lookup d = some (normalizeDay (rawObjOf raw) d) :=
  lookup_graph WEEKDAYS (fun k => normalizeDay (rawObjOf raw) k) d hd

theorem get_user_schedule_absent (f : FileState) (u : Nat)
    (h : (load_all f).lookup (toString u) = none) :
    get_user_schedule f u =
      (default_schedule,
        save_all (dictInsert (load_all f) (toString u) (toJObj default_schedule))) := by
  simp [get_user_schedule, h]

theorem get_user_schedule_present (f : FileState) (u : Nat) (entry : JValue)
    (h : (load_all f).lookup (toString u) = some entry) :
    get_user_schedule f u =
      (normalize_schedule entry,
        save_all (dictInsert (load_all f) (toString u)
          (toJObj (normalize_schedule entry)))) := by
  simp [get_user_schedule, h]

theorem load_all_save_all (data : List (String × JValue)) :
    load_all (save_all data) = data := rfl

theorem get_user_schedule_roundtrip (f2 : FileState) (u : Nat) (s : Schedule)
    (hs : Canonical s)
    (h : (load_all f2).lookup (toString u) = some (toJObj s)) :
    (get_user_schedule f2 u).1 = s := by
  rw [get_user_schedule_present f2 u _ h]
  exact canonical_normalize_id s hs

theorem updateSched_lookup (s : Schedule) (day d : String) (i : Nat) (val : JValue) :
    (updateSched s day i val).lookup d =
      (s.lookup d).map fun l => if d = day then l.set i val else l := by
  induction s with
  | nil => simp [updateSched]
  | cons p t ih =>
    obtain ⟨k, vk⟩ := p
    by_cases h : d = k
    · subst h
      simp [updateSched, List.lookup]
    · have hb : (d == k) = false := by simp [h]
      simp only [updateSched, List.map_cons, List.lookup, hb] at ih ⊢
      exact ih

theorem updateSched_canonical (s : Schedule) (day : String) (i : Nat) (val : JValue)
    (hs : Canonical s) : Canonical (updateSched s day i val) := by
  obtain ⟨v1, v2, v3, v4, v5, h1, h2, h3, h4, h5, rfl⟩ := hs
  refine ⟨_, _, _, _, _, ?_, ?_, ?_, ?_, ?_, rfl⟩ <;>
    · split
      · simp only [List.length_set]
        assumption
      · assumption

/-! ## C1 — normalization is idempotent and shape-fixing -/

/-- C1 (amended): `_normalize_schedule` is idempotent; its result always maps
exactly the five weekdays, in order, each to a list of exactly `PAIR_COUNT`
slots; a day whose raw value is a list is truncated to `PAIR_COUNT` entries
and padded with the `"—"` marker; a day whose raw value is missing or not a
list becomes `PAIR_COUNT` markers.  (The slots themselves are the raw list's
elements unchanged, which need not be strings — see the counterexample.) -/
theorem normalize_idem_shape (raw : JValue) :
    normalize_schedule (toJObj (normalize_schedule raw)) = normalize_schedule raw ∧
    (normalize_schedule raw).map Prod.fst = WEEKDAYS ∧
    (∀ p ∈ normalize_schedule raw, p.2.length = PAIR_COUNT) ∧
    (∀ d l, d ∈ WEEKDAYS → rawDayList raw d = some l →
      (normalize_schedule raw).lookup d =
        some (l.take PAIR_COUNT ++
          List.replicate (PAIR_COUNT - l.length) (JValue.jstr "—"))) ∧
    (∀ d, d ∈ WEEKDAYS → rawDayList raw d = none →
      (normalize_schedule raw).lookup d =
        some (List.replicate PAIR_COUNT (JValue.jstr "—"))) := by
  refine ⟨canonical_normalize_id _ (normalize_canonical raw), ?_, ?_, ?_, ?_⟩
  · obtain ⟨v1, v2, v3, v4, v5, h1, h2, h3, h4, h5, hs⟩ := normalize_canonical raw
    rw [hs]
    rfl
  · obtain ⟨v1, v2, v3, v4, v5, h1, h2, h3, h4, h5, hs⟩ := normalize_canonical raw
    rw [hs]
    intro p hp
    simp only [List.mem_cons, List.not_mem_nil, or_false] at hp
    rcases hp with rfl | rfl | rfl | rfl | rfl <;> assumption
  · intro d l hd hl
    rw [normalize_lookup raw d hd, normalizeDay_eq, hl]
    simp only [Option.getD_some]
    rw [takePad_eq]
  · intro d hd hl
    rw [normalize_lookup raw d hd, normalizeDay_eq, hl]
    simp only [Option.getD_none]
    rfl

/-- Witness for C1 at a concrete raw input: a one-element monday list is
padded to four entries, and the whole result is a fixed point of
normalization. -/
theorem normalize_idem_shape_witness :
    ("monday" ∈ WEEKDAYS ∧
      rawDayList (JValue.jobj [("monday", JValue.jarr [JValue.jstr "a"])])
        "monday" = some [JValue.jstr "a"]) ∧
    normalize_schedule (toJObj (normalize_schedule
        (JValue.jobj [("monday", JValue.jarr [JValue.jstr "a"])]))) =
      normalize_schedule (JValue.jobj [("monday", JValue.jarr [JValue.jstr "a"])]) ∧
    (normalize_schedule (JValue.jobj
        [("monday", JValue.jarr [JValue.jstr "a"])])).lookup "monday" =
      some ([JValue.jstr "a"].take PAIR_COUNT ++
        List.replicate (PAIR_COUNT - [JValue.jstr "a"].length) (JValue.jstr "—")) :=
  ⟨⟨by decide, by decide⟩,
    (normalize_idem_shape (JValue.jobj [("monday", JValue.jarr [JValue.jstr "a"])])).1,
    (normalize_idem_shape
        (JValue.jobj [("monday", JValue.jarr [JValue.jstr "a"])])).2.2.2.1
      "monday" [JValue.jstr "a"] (by decide) (by decide)⟩

/-- A raw input on which C1's claim that normalization always yields *string*
slots fails: `{"monday": [null]}` normalizes to a monday list whose first
slot is `null`, not a string. -/
theorem normalize_slot_not_string :
    getSlot (normalize_schedule (JValue.jobj [("monday", JValue.jarr [JValue.jnull])]))
        "monday" 0 = some JValue.jnull ∧
    isStringSlot JValue.jnull = false := by
  constructor
  · decide
  · decide

/-! ## C2 — unseen user gets the default schedule, persisted -/

/-- C2: for a user id whose key is not in the loaded table (in particular
when the store file is absent), `get_user_schedule` returns the default
schedule — every one of the five days mapping to four `"—"` markers — and
persists it: loading the resulting file finds the stringified user id bound
to exactly that default. -/
theorem getUserSchedule_default (f : FileState) (u : Nat)
    (h : (load_all f).lookup (toString u) = none) :
    (get_user_schedule f u).1 = default_schedule ∧
    (∀ p ∈ (get_user_schedule f u).1,
      p.2 = List.replicate PAIR_COUNT (JValue.jstr "—")) ∧
    (load_all (get_user_schedule f u).2).lookup (toString u) =
      some (toJObj default_schedule) := by
  have hg := get_user_schedule_absent f u h
  have h1 : (get_user_schedule f u).1 = default_schedule := by rw [hg]
  have h2 : (get_user_schedule f u).2 =
      save_all (dictInsert (load_all f) (toString u) (toJObj default_schedule)) := by
    rw [hg]
  refine ⟨h1, ?_, ?_⟩
  · rw [h1]
    decide
  · rw [h2]
    simp only [load_all_save_all]
    exact lookup_dictInsert_self _ _ _

/-- Witness for C2: absent store file, user 42. -/
theorem getUserSchedule_default_witness :
    (get_user_schedule FileState.absent 42).1 = default_schedule ∧
    (∀ p ∈ (get_user_schedule FileState.absent 42).1,
      p.2 = List.replicate PAIR_COUNT (JValue.jstr "—")) ∧
    (load_all (get_user_schedule FileState.absent 42).2).lookup (toString 42) =
      some (toJObj default_schedule) :=
  getUserSchedule_default FileState.absent 42 rfl

/-! ## C3 — set/get round-trip -/

/-- C3: for every user id, every starting file state and every raw schedule
value `S`, `set_user_schedule` followed by `get_user_schedule` hands back
exactly `_normalize_schedule(S)`. -/
theorem setUserSchedule_roundtrip (f : FileState) (u : Nat) (S : JValue) :
    (get_user_schedule (set_user_schedule f u S) u).1 = normalize_schedule S := by
  have h : (load_all (set_user_schedule f u S)).lookup (toString u) =
      some (toJObj (normalize_schedule S)) := by
    simp only [set_user_schedule, load_all_save_all]
    exact lookup_dictInsert_self _ _ _
  exact get_user_schedule_roundtrip _ u _ (normalize_canonical S) h

theorem canonical_lookup {s : Schedule} (hs : Canonical s) {d : String}
    (hd : d ∈ WEEKDAYS) : ∃ l, s.lookup d = some l ∧ l.length = PAIR_COUNT := by
  obtain ⟨v1, v2, v3, v4, v5, h1, h2, h3, h4, h5, rfl⟩ := hs
  simp only [WEEKDAYS, List.mem_cons, List.not_mem_nil, or_false] at hd
  rcases hd with rfl | rfl | rfl | rfl | rfl
  · exact ⟨v1, rfl, h1⟩
  · exact ⟨v2, rfl, h2⟩
  · exact ⟨v3, rfl, h3⟩
  · exact ⟨v4, rfl, h4⟩
  · exact ⟨v5, rfl, h5⟩

theorem getSlot_updateSched_self {s : Schedule} (hs : Canonical s) {day : String}
    (hd : day ∈ WEEKDAYS) {i : Nat} (hi : i < PAIR_COUNT) (val : JValue) :
    getSlot (updateSched s day i val) day i = some val := by
  obtain ⟨l, hl, hlen⟩ := canonical_lookup hs hd
  unfold getSlot
  rw [updateSched_lookup, hl]
  simp only [Option.map_some', if_pos rfl, Option.some_bind]
  exact List.getElem?_set_eq_of_lt val (by rw [hlen]; exact hi)

theorem getSlot_updateSched_ne (s : Schedule) (day : String) (i j : Nat) (val : JValue)
    (hij : j ≠ i) :
    getSlot (updateSched s day i val) day j = getSlot s day j := by
  unfold getSlot
  rw [updateSched_lookup]
  cases h : s.lookup day with
  | none => rfl
  | some l =>
    simp only [Option.map_some', if_pos rfl, Option.some_bind]
    exact List.getElem?_set_ne (Ne.symm hij)

theorem updateSched_lookup_ne (s : Schedule) (day d : String) (i : Nat) (val : JValue)
    (h : d ≠ day) : (updateSched s day i val).lookup d = s.lookup d := by
  rw [updateSched_lookup]
  cases hsl : s.lookup d <;> simp [h]

theorem set_user_day_slot_spec (f : FileState) (u : Nat) (day : String) (i : Nat)
    (value : String) (hd : day ∈ WEEKDAYS) (hi : i < PAIR_COUNT) :
    set_user_day_slot f u day i value =
      some (updateSched (get_user_schedule f u).1 day i
          (JValue.jstr (if value = "" then "—" else value)),
        save_all (dictInsert (load_all (get_user_schedule f u).2) (toString u)
          (toJObj (updateSched (get_user_schedule f u).1 day i
            (JValue.jstr (if value = "" then "—" else value)))))) := by
  obtain ⟨l, hl, hlen⟩ := canonical_lookup (get_user_schedule_canonical f u) hd
  have hilt : i < l.length := by
    rw [hlen]
    exact hi
  have hnorm := canonical_normalize_id
    (updateSched (get_user_schedule f u).1 day i
      (JValue.jstr (if value = "" then "—" else value)))
    (updateSched_canonical _ _ _ _ (get_user_schedule_canonical f u))
  simp only [set_user_day_slot, set_user_schedule, hl, hilt, if_true, hnorm]

theorem setSlot_then_get (f : FileState) (u : Nat) (day : String) (i : Nat)
    (value : String) (hd : day ∈ WEEKDAYS) (hi : i < PAIR_COUNT) :
    ∃ sched f2, set_user_day_slot f u day i value = some (sched, f2) ∧
      sched = updateSched (get_user_schedule f u).1 day i
        (JValue.jstr (if value = "" then "—" else value)) ∧
      getSlot sched day i = some (JValue.jstr (if value = "" then "—" else value)) ∧
      (get_user_schedule f2 u).1 = sched := by
  refine ⟨_, _, set_user_day_slot_spec f u day i value hd hi, rfl, ?_, ?_⟩
  · exact getSlot_updateSched_self (get_user_schedule_canonical f u) hd hi _
  · apply get_user_schedule_roundtrip
    · exact updateSched_canonical _ _ _ _ (get_user_schedule_canonical f u)
    · simp only [load_all_save_all]
      exact lookup_dictInsert_self _ _ _

/-! ## C8 — load_all never raises and fails soft -/

/-- C8: `load_all` returns the empty table when the file is absent, cannot be
read, or does not parse, and when the parsed top level is not a JSON object;
when the file holds a JSON object it returns exactly that mapping. -/
theorem loadAll_fail_soft :
    load_all FileState.absent = [] ∧
    load_all FileState.unreadable = [] ∧
    load_all FileState.invalidJson = [] ∧
    (∀ j : JValue, (∀ kvs, j ≠ JValue.jobj kvs) →
      load_all (FileState.content j) = []) ∧
    (∀ kvs, load_all (FileState.content (JValue.jobj kvs)) = kvs) := by
  refine ⟨rfl, rfl, rfl, ?_, fun kvs => rfl⟩
  intro j hj
  cases j with
  | jobj kvs => exact absurd rfl (hj kvs)
  | _ => rfl

/-- Witness for C8: a non-object top level (a JSON array) and a concrete
object both behave as claimed. -/
theorem loadAll_fail_soft_witness :
    load_all (FileState.content (JValue.jarr [JValue.jnum 1])) = [] ∧
    load_all (FileState.content (JValue.jobj [("9", JValue.jnull)])) =
      [("9", JValue.jnull)] :=
  ⟨loadAll_fail_soft.2.2.2.1 (JValue.jarr [JValue.jnum 1])
      (fun _ h => JValue.noConfusion h),
    loadAll_fail_soft.2.2.2.2 [("9", JValue.jnull)]⟩

/-! ## C10 — the slot access in set_user_day_slot cannot fail -/

/-- C10: for a genuine weekday and a slot index below `PAIR_COUNT`, the
`schedule[day][slot_index]` access inside `set_user_day_slot` cannot raise:
`get_user_schedule` always returns a schedule with all five weekday keys,
each holding exactly four slots, so the error branch (`none`) is
unreachable. -/
theorem setUserDaySlot_safe (f : FileState) (u : Nat) (day : String) (i : Nat)
    (value : String) (hd : day ∈ WEEKDAYS) (hi : i < PAIR_COUNT) :
    (set_user_day_slot f u day i value).isSome := by
  obtain ⟨sched, f2, heq, -, -, -⟩ := setSlot_then_get f u day i value hd hi
  rw [heq]
  rfl

/-- Witness for C10. -/
theorem setUserDaySlot_safe_witness :
    ("friday" ∈ WEEKDAYS ∧ 2 < PAIR_COUNT) ∧
    (set_user_day_slot FileState.absent 3 "friday" 2 "Math").isSome :=
  ⟨⟨by decide, by decide⟩,
    setUserDaySlot_safe FileState.absent 3 "friday" 2 "Math" (by decide) (by decide)⟩

/-! ## C4 — setSlot stores the trimmed text or the empty marker -/

/-- C4: writing a slot through the text-handler pipeline stores the trimmed
text, or the `"—"` marker when the trimmed text is empty (so a blank or
all-whitespace message collapses to the marker), and hands back the
resulting full schedule — the same one a fresh `get_user_schedule` returns. -/
theorem setSlot_trims_and_collapses (f : FileState) (u : Nat) (day : String) (i : Nat)
    (text : String) (hd : day ∈ WEEKDAYS) (hi : i < PAIR_COUNT) :
    ∃ sched f2, setSlot f u day i text = some (sched, f2) ∧
      getSlot sched day i =
        some (JValue.jstr (if pyStrip text = "" then "—" else pyStrip text)) ∧
      (get_user_schedule f2 u).1 = sched := by
  have hv : (if (if pyStrip text = "" then "—" else pyStrip text) = "" then "—"
      else (if pyStrip text = "" then "—" else pyStrip text)) =
      (if pyStrip text = "" then "—" else pyStrip text) := by
    by_cases h : pyStrip text = "" <;> simp [h]
  obtain ⟨sched, f2, heq, hupd, hslot, hget⟩ :=
    setSlot_then_get f u day i (if pyStrip text = "" then "—" else pyStrip text) hd hi
  rw [hv] at hslot
  exact ⟨sched, f2, heq, hslot, hget⟩

/-- Witness for C4: an all-whitespace message stores the empty marker. -/
theorem setSlot_trims_witness :
    ("monday" ∈ WEEKDAYS ∧ 1 < PAIR_COUNT) ∧
    ∃ sched f2, setSlot FileState.absent 7 "monday" 1 "   " = some (sched, f2) ∧
      getSlot sched "monday" 1 = some (JValue.jstr "—") ∧
      (get_user_schedule f2 7).1 = sched := by
  refine ⟨⟨by decide, by decide⟩, ?_⟩
  have h := setSlot_trims_and_collapses FileState.absent 7 "monday" 1 "   "
    (by decide) (by decide)
  have ht : pyStrip "   " = "" := rfl
  rw [ht] at h
  simpa using h

/-! ## C5 — slot isolation (frame condition) -/

theorem strip_or_dash_idem (text : String) :
    (if (if pyStrip text = "" then "—" else pyStrip text) = "" then "—"
      else (if pyStrip text = "" then "—" else pyStrip text)) =
      (if pyStrip text = "" then "—" else pyStrip text) := by
  by_cases h : pyStrip text = "" <;> simp [h]

theorem map_jarr_lookup (s : Schedule) (d : String) :
    ((s.map fun p => (p.1, JValue.jarr p.2)).lookup d) =
      (s.lookup d).map JValue.jarr := by
  induction s with
  | nil => rfl
  | cons p t ih =>
    obtain ⟨k, v⟩ := p
    by_cases h : d = k
    · subst h
      simp [List.lookup]
    · have hb : (d == k) = false := by simp [h]
      simp [List.lookup, hb, ih]

/-- C5 (amended): slot isolation holds when the user's persisted entry is
already in normal form (equal to its own normalization — exactly the five
weekday keys each with exactly four slots).  Then `setSlot` changes slot `i`
of `day` only: every other user's entry is persisted unchanged, every other
day of the user's entry keeps its persisted slot list verbatim, and every
other slot of that day keeps its persisted value.  Without the normal-form
hypothesis the claim fails — the entry is first normalized, which can create
days or drop data (see the counterexample). -/
theorem setSlot_frame (f : FileState) (u : Nat) (day : String) (i : Nat)
    (text : String) (e : JValue) (hd : day ∈ WEEKDAYS) (hi : i < PAIR_COUNT)
    (he : (load_all f).lookup (toString u) = some e)
    (hn : e = toJObj (normalize_schedule e)) :
    ∃ sched f2, setSlot f u day i text = some (sched, f2) ∧
      (∀ k, k ≠ toString u → (load_all f2).lookup k = (load_all f).lookup k) ∧
      (load_all f2).lookup (toString u) = some (toJObj sched) ∧
      getSlot sched day i =
        some (JValue.jstr (if pyStrip text = "" then "—" else pyStrip text)) ∧
      (∀ d tl, d ≠ day → (rawObjOf e).lookup d = some (JValue.jarr tl) →
        sched.lookup d = some tl) ∧
      (∀ j tl, j ≠ i → (rawObjOf e).lookup day = some (JValue.jarr tl) →
        getSlot sched day j = tl[j]?) := by
  have hget := get_user_schedule_present f u e he
  have h1 : (get_user_schedule f u).1 = normalize_schedule e := by rw [hget]
  have h2 : (get_user_schedule f u).2 =
      save_all (dictInsert (load_all f) (toString u)
        (toJObj (normalize_schedule e))) := by
    rw [hget]
  have hre : rawObjOf e =
      (normalize_schedule e).map fun p => (p.1, JValue.jarr p.2) := by
    nth_rewrite 1 [hn]
    rfl
  have hspec := set_user_day_slot_spec f u day i
    (if pyStrip text = "" then "—" else pyStrip text) hd hi
  rw [strip_or_dash_idem, h1, h2] at hspec
  refine ⟨_, _, hspec, ?_, ?_, ?_, ?_, ?_⟩
  · intro k hk
    simp only [load_all_save_all]
    rw [lookup_dictInsert_ne _ _ _ _ hk, lookup_dictInsert_ne _ _ _ _ hk]
  · simp only [load_all_save_all]
    exact lookup_dictInsert_self _ _ _
  · exact getSlot_updateSched_self (normalize_canonical e) hd hi _
  · intro d tl hdne hlk
    rw [hre, map_jarr_lookup] at hlk
    have hsd : (normalize_schedule e).lookup d = some tl := by
      cases hx : (normalize_schedule e).lookup d with
      | none => rw [hx] at hlk; cases hlk
      | some l =>
        rw [hx] at hlk
        simp only [Option.map_some', Option.some.injEq, JValue.jarr.injEq] at hlk
        rw [hlk]
    rw [updateSched_lookup_ne _ _ _ _ _ hdne, hsd]
  · intro j tl hji hlk
    rw [hre, map_jarr_lookup] at hlk
    have hsd : (normalize_schedule e).lookup day = some tl := by
      cases hx : (normalize_schedule e).lookup day with
      | none => rw [hx] at hlk; cases hlk
      | some l =>
        rw [hx] at hlk
        simp only [Option.map_some', Option.some.injEq, JValue.jarr.injEq] at hlk
        rw [hlk]
    rw [getSlot_updateSched_ne _ _ _ _ _ hji]
    unfold getSlot
    rw [hsd]
    rfl

/-- Witness for C5 at a concrete normal-form entry. -/
theorem setSlot_frame_witness :
    ∃ sched f2,
      setSlot (FileState.content (JValue.jobj
          [("8", toJObj default_schedule), ("9", JValue.jnum 3)])) 8
        "tuesday" 2 " physics " = some (sched, f2) ∧
      (load_all f2).lookup "9" = some (JValue.jnum 3) ∧
      (load_all f2).lookup "8" = some (toJObj sched) ∧
      getSlot sched "tuesday" 2 = some (JValue.jstr "physics") ∧
      sched.lookup "monday" = some [JValue.jstr "—", JValue.jstr "—",
        JValue.jstr "—", JValue.jstr "—"] ∧
      getSlot sched "tuesday" 0 = some (JValue.jstr "—") := by
  obtain ⟨sched, f2, heq, hothers, hself, hslot, hdays, hslots⟩ :=
    setSlot_frame (FileState.content (JValue.jobj
        [("8", toJObj default_schedule), ("9", JValue.jnum 3)])) 8
      "tuesday" 2 " physics " (toJObj default_schedule)
      (by decide) (by decide) (by decide) (by decide)
  refine ⟨sched, f2, heq, ?_, hself, ?_, ?_, ?_⟩
  · have h := hothers "9" (by decide)
    rw [h]
    decide
  · have h := hslot
    rw [show pyStrip " physics " = "physics" from rfl] at h
    simpa using h
  · exact hdays "monday" [JValue.jstr "—", JValue.jstr "—", JValue.jstr "—",
      JValue.jstr "—"] (by decide) (by decide)
  · have h := hslots 0 [JValue.jstr "—", JValue.jstr "—", JValue.jstr "—",
      JValue.jstr "—"] (by decide) (by decide)
    simpa using h

/-- Counterexample to C5 as stated: for a persisted table whose entry for the
user is not yet normalized (here user 7 has only a monday list), `setSlot`
does not leave "every other day" untouched — the normalization it performs
on the way creates the four missing days. -/
theorem setSlot_frame_counterexample :
    (((load_all (FileState.content (JValue.jobj [("7", JValue.jobj
        [("monday", JValue.jarr [JValue.jstr "a", JValue.jstr "b",
          JValue.jstr "c", JValue.jstr "d"])])]))).lookup "7").map
      fun e => (rawObjOf e).lookup "tuesday") = some none ∧
    ((setSlot (FileState.content (JValue.jobj [("7", JValue.jobj
        [("monday", JValue.jarr [JValue.jstr "a", JValue.jstr "b",
          JValue.jstr "c", JValue.jstr "d"])])])) 7 "monday" 0 "x").map
      fun r => ((load_all r.2).lookup "7").map
        fun e => (rawObjOf e).lookup "tuesday") =
      some (some (some (JValue.jarr [JValue.jstr "—", JValue.jstr "—",
        JValue.jstr "—", JValue.jstr "—"]))) := by
  constructor
  · decide
  · decide

/-! ## C6 — desync guard on text entry -/

/-- C6: a free-text event handled in the build or edit text-entry state whose
pending session selection is absent, names a day outside the five weekdays,
or carries a slot index outside `0..PAIR_COUNT-1`, performs no storage
mutation (the file state is returned unchanged), replies with the restart
notice, and returns to the menu state instead of raising. -/
theorem desync_guard (f : FileState) (sess : Session) (u : Nat) (msg : String) :
    ((¬ ∃ d s, sess.build_day = some d ∧ sess.build_slot = some s ∧
        d ∈ WEEKDAYS ∧ 0 ≤ s ∧ s < (PAIR_COUNT : Int)) →
      on_build_text f sess u msg =
        some ⟨"Состояние сбилось. Нажмите /start.", STATE_MENU, f, sess⟩) ∧
    ((¬ ∃ d s, sess.edit_day = some d ∧ sess.edit_slot = some s ∧
        d ∈ WEEKDAYS ∧ 0 ≤ s ∧ s < (PAIR_COUNT : Int)) →
      on_edit_text f sess u msg =
        some ⟨"Состояние сбилось. Нажмите /start.", STATE_MENU, f, sess⟩) := by
  constructor
  · intro h
    cases hbd : sess.build_day with
    | none => simp [on_build_text, hbd]
    | some day =>
      cases hbs : sess.build_slot with
      | none => simp [on_build_text, hbd, hbs]
      | some slot =>
        have hcond : ¬ (WEEKDAYS.contains day = true ∧ 0 ≤ slot ∧
            slot < (PAIR_COUNT : Int)) := by
          rintro ⟨hc, hb0, hb1⟩
          exact h ⟨day, slot, hbd, hbs, by simpa using hc, hb0, hb1⟩
        simp only [on_build_text, hbd, hbs]
        rw [if_neg hcond]
  · intro h
    cases hbd : sess.edit_day with
    | none => simp [on_edit_text, hbd]
    | some day =>
      cases hbs : sess.edit_slot with
      | none => simp [on_edit_text, hbd, hbs]
      | some slot =>
        have hcond : ¬ (WEEKDAYS.contains day = true ∧ 0 ≤ slot ∧
            slot < (PAIR_COUNT : Int)) := by
          rintro ⟨hc, hb0, hb1⟩
          exact h ⟨day, slot, hbd, hbs, by simpa using hc, hb0, hb1⟩
        simp only [on_edit_text, hbd, hbs]
        rw [if_neg hcond]

/-- Witness for C6: an empty session (as after a process restart) and a
session holding an out-of-range slot index both hit the guard. -/
theorem desync_guard_witness :
    on_build_text FileState.absent
        ⟨none, none, none, none⟩ 1 "Math" =
      some ⟨"Состояние сбилось. Нажмите /start.", STATE_MENU,
        FileState.absent, ⟨none, none, none, none⟩⟩ ∧
    on_edit_text (FileState.content (JValue.jobj []))
        ⟨none, none, some "monday", some 9⟩ 2 "Math" =
      some ⟨"Состояние сбилось. Нажмите /start.", STATE_MENU,
        FileState.content (JValue.jobj []), ⟨none, none, some "monday", some 9⟩⟩ := by
  constructor
  · exact (desync_guard FileState.absent ⟨none, none, none, none⟩ 1 "Math").1
      (by rintro ⟨d, s, hd, -⟩; cases hd)
  · exact (desync_guard (FileState.content (JValue.jobj []))
        ⟨none, none, some "monday", some 9⟩ 2 "Math").2
      (by rintro ⟨d, s, hd, hs, -, -, hlt⟩; cases hd; cases hs; exact absurd hlt (by decide))

/-! ## C9 — get_user_schedule's no-op persistence path -/

/-- C9 (amended): `get_user_schedule` calls `save_all` on every path, but
when the user's entry is present and equal to its own normalization (exactly
the five weekday keys, in canonical order, each with exactly `PAIR_COUNT`
slots and nothing else) the rewritten table equals the prior one, so the
persisted state is unchanged.  For entries that are merely "well-formed" in
the claim's sense but not equal to their normalization (extra keys, other
key order), the file does change — see the counterexample. -/
theorem getUserSchedule_noop (f : FileState) (u : Nat)
    (kvs : List (String × JValue)) (e : JValue)
    (hf : f = FileState.content (JValue.jobj kvs))
    (hnd : NodupKeys kvs)
    (he : kvs.lookup (toString u) = some e)
    (hn : e = toJObj (normalize_schedule e)) :
    (get_user_schedule f u).2 = f := by
  subst hf
  have hload : load_all (FileState.content (JValue.jobj kvs)) = kvs := rfl
  have hget := get_user_schedule_present (FileState.content (JValue.jobj kvs)) u e
    (by rw [hload]; exact he)
  have h2 : (get_user_schedule (FileState.content (JValue.jobj kvs)) u).2 =
      save_all (dictInsert kvs (toString u) (toJObj (normalize_schedule e))) := by
    rw [hget, hload]
  rw [h2, ← hn, dictInsert_self kvs _ e hnd he]
  rfl

/-- Witness for C9: a table holding exactly the canonical default entry is
left untouched. -/
theorem getUserSchedule_noop_witness :
    (get_user_schedule (FileState.content (JValue.jobj
        [("4", toJObj default_schedule)])) 4).2 =
      FileState.content (JValue.jobj [("4", toJObj default_schedule)]) :=
  getUserSchedule_noop _ 4 [("4", toJObj default_schedule)]
    (toJObj default_schedule) rfl (by decide) (by decide) (by decide)

/-- Counterexample to C9 as stated: an entry that is well-formed in the
claim's sense — all five weekdays present, each with exactly four string
slots — but carrying an extra `"saturday"` key.  `get_user_schedule`
re-persists its normalization, which drops the extra key, so the persisted
table after the call differs from the table before it. -/
theorem getUserSchedule_noop_counterexample :
    (∀ d ∈ WEEKDAYS,
      (rawObjOf (JValue.jobj
        [("monday", JValue.jarr [JValue.jstr "—", JValue.jstr "—",
            JValue.jstr "—", JValue.jstr "—"]),
         ("tuesday", JValue.jarr [JValue.jstr "—", JValue.jstr "—",
            JValue.jstr "—", JValue.jstr "—"]),
         ("wednesday", JValue.jarr [JValue.jstr "—", JValue.jstr "—",
            JValue.jstr "—", JValue.jstr "—"]),
         ("thursday", JValue.jarr [JValue.jstr "—", JValue.jstr "—",
            JValue.jstr "—", JValue.jstr "—"]),
         ("friday", JValue.jarr [JValue.jstr "—", JValue.jstr "—",
            JValue.jstr "—", JValue.jstr "—"]),
         ("saturday", JValue.jarr [JValue.jstr "x"])])).lookup d =
        some (JValue.jarr [JValue.jstr "—", JValue.jstr "—",
          JValue.jstr "—", JValue.jstr "—"])) ∧
    (get_user_schedule (FileState.content (JValue.jobj [("5", JValue.jobj
        [("monday", JValue.jarr [JValue.jstr "—", JValue.jstr "—",
            JValue.jstr "—", JValue.jstr "—"]),
         ("tuesday", JValue.jarr [JValue.jstr "—", JValue.jstr "—",
            JValue.jstr "—", JValue.jstr "—"]),
         ("wednesday", JValue.jarr [JValue.jstr "—", JValue.jstr "—",
            JValue.jstr "—", JValue.jstr "—"]),
         ("thursday", JValue.jarr [JValue.jstr "—", JValue.jstr "—",
            JValue.jstr "—", JValue.jstr "—"]),
         ("friday", JValue.jarr [JValue.jstr "—", JValue.jstr "—",
            JValue.jstr "—", JValue.jstr "—"]),
         ("saturday", JValue.jarr [JValue.jstr "x"])])])) 5).2 ≠
      FileState.content (JValue.jobj [("5", JValue.jobj
        [("monday", JValue.jarr [JValue.jstr "—", JValue.jstr "—",
            JValue.jstr "—", JValue.jstr "—"]),
         ("tuesday", JValue.jarr [JValue.jstr "—", JValue.jstr "—",
            JValue.jstr "—", JValue.jstr "—"]),
         ("wednesday", JValue.jarr [JValue.jstr "—", JValue.jstr "—",
            JValue.jstr "—", JValue.jstr "—"]),
         ("thursday", JValue.jarr [JValue.jstr "—", JValue.jstr "—",
            JValue.jstr "—", JValue.jstr "—"]),
         ("friday", JValue.jarr [JValue.jstr "—", JValue.jstr "—",
            JValue.jstr "—", JValue.jstr "—"]),
         ("saturday", JValue.jarr [JValue.jstr "x"])])]) := by
  constructor
  · decide
  · decide

/-! ## C7 — the build flow through the state machine -/

theorem weekday_eq_cases {d : String} (hd : d ∈ WEEKDAYS) :
    d = "monday" ∨ d = "tuesday" ∨ d = "wednesday" ∨ d = "thursday" ∨
      d = "friday" := by
  simpa [WEEKDAYS] using hd

theorem weekday_ru_lookup {d : String} (hd : d ∈ WEEKDAYS) :
    ∃ ru, WEEKDAY_RU.lookup d = some ru := by
  rcases weekday_eq_cases hd with rfl | rfl | rfl | rfl | rfl <;> exact ⟨_, rfl⟩

theorem on_build_day_success (f : FileState) (sess : Session) (u : Nat)
    (day : String) (hd : day ∈ WEEKDAYS) :
    ∃ r2, on_build_day f sess u ("buildday:" ++ day) = some r2 ∧
      r2.state = STATE_BUILD_SLOT ∧ r2.file = (get_user_schedule f u).2 ∧
      r2.session = { sess with build_day := some day } := by
  have hsplit : pySplit1 ("buildday:" ++ day) = some ("buildday", day) := by
    rcases weekday_eq_cases hd with rfl | rfl | rfl | rfl | rfl <;> decide
  obtain ⟨ru, hru⟩ := weekday_ru_lookup hd
  have hfd : ∃ t, format_day (get_user_schedule f u).1 day = some t := by
    simp only [format_day, hru]
    exact ⟨_, rfl⟩
  obtain ⟨fdtext, hfd⟩ := hfd
  refine ⟨⟨fdtext ++ "\n\nВыберите, какую пару заполнить:", STATE_BUILD_SLOT,
    (get_user_schedule f u).2, { sess with build_day := some day }⟩, ?_, rfl, rfl, rfl⟩
  simp only [on_build_day, hsplit, hfd]

theorem on_build_slot_success (day : String) (hd : day ∈ WEEKDAYS) (i : Nat)
    (hi : i < PAIR_COUNT) (f : FileState) (sess : Session) :
    ∃ r3, on_build_slot f sess ("buildslot:" ++ day ++ ":" ++ toString i) = some r3 ∧
      r3.state = STATE_BUILD_TEXT ∧ r3.file = f ∧
      r3.session = { sess with build_day := some day, build_slot := some (i : Int) } := by
  have hi4 : i < 4 := hi
  rcases weekday_eq_cases hd with rfl | rfl | rfl | rfl | rfl <;>
    interval_cases i <;> exact ⟨_, rfl, rfl, rfl, rfl⟩

theorem on_build_text_success (f : FileState) (sess : Session) (u : Nat) (T : String)
    (day : String) (slot : Int) (hbd : sess.build_day = some day)
    (hbs : sess.build_slot = some slot) (hd : day ∈ WEEKDAYS)
    (hs0 : 0 ≤ slot) (hs4 : slot < (PAIR_COUNT : Int))
    (hT : pyStrip T = T) (hne : T ≠ "") :
    ∃ r4, on_build_text f sess u T = some r4 ∧
      r4.state = STATE_MENU ∧ r4.session = sess ∧
      ∃ sched, set_user_day_slot f u day slot.toNat T = some (sched, r4.file) ∧
        (get_user_schedule r4.file u).1 = sched ∧
        getSlot sched day slot.toNat = some (JValue.jstr T) := by
  have hnat : slot.toNat < PAIR_COUNT := by omega
  obtain ⟨sched, f4, hsd, hupd, hslot, hget⟩ :=
    setSlot_then_get f u day slot.toNat T hd hnat
  rw [if_neg hne] at hslot
  obtain ⟨ru, hru⟩ := weekday_ru_lookup hd
  have hcontains : WEEKDAYS.contains day = true := by simpa using hd
  have hfd : ∃ t, format_day sched day = some t := by
    simp only [format_day, hru]
    exact ⟨_, rfl⟩
  obtain ⟨fdtext, hfd⟩ := hfd
  refine ⟨⟨"Сохранено.\n\n" ++ fdtext, STATE_MENU, f4, sess⟩, ?_, rfl, rfl,
    sched, hsd, hget, hslot⟩
  simp only [on_build_text, hbd, hbs, hT, if_neg hne]
  rw [if_pos ⟨hcontains, hs0, hs4⟩]
  simp only [hsd, hfd]

/-- C7 (amended): starting at the menu, selecting build, then weekday `D`,
then slot `i`, then sending a text `T` that is its own strip and nonempty,
walks the machine through `STATE_BUILD_DAY`, `STATE_BUILD_SLOT`,
`STATE_BUILD_TEXT` and back to `STATE_MENU`, and afterwards slot `i` of day
`D` of the user's stored schedule equals `T`.  (For a `T` with surrounding
whitespace — or a blank `T` — the stored value is the stripped text resp.
the `"—"` marker, not `T` itself: see the counterexample.) -/
theorem build_flow (f : FileState) (sess : Session) (u : Nat) (D : String)
    (i : Nat) (T : String) (hD : D ∈ WEEKDAYS) (hi : i < PAIR_COUNT)
    (hT : pyStrip T = T) (hne : T ≠ "") :
    (on_menu_click f sess "menu:build").state = STATE_BUILD_DAY ∧
    ∃ r2 r3 r4,
      on_build_day (on_menu_click f sess "menu:build").file
        (on_menu_click f sess "menu:build").session u ("buildday:" ++ D) = some r2 ∧
      r2.state = STATE_BUILD_SLOT ∧
      on_build_slot r2.file r2.session ("buildslot:" ++ D ++ ":" ++ toString i) =
        some r3 ∧
      r3.state = STATE_BUILD_TEXT ∧
      on_build_text r3.file r3.session u T = some r4 ∧
      r4.state = STATE_MENU ∧
      getSlot (get_user_schedule r4.file u).1 D i = some (JValue.jstr T) := by
  have hm : on_menu_click f sess "menu:build" =
      ⟨"Составление. Выберите день (Пн–Пт):", STATE_BUILD_DAY, f, sess⟩ := rfl
  rw [hm]
  refine ⟨rfl, ?_⟩
  obtain ⟨r2, h2eq, h2st, h2f, h2s⟩ := on_build_day_success f sess u D hD
  obtain ⟨r3, h3eq, h3st, h3f, h3s⟩ := on_build_slot_success D hD i hi r2.file r2.session
  have hbd3 : r3.session.build_day = some D := by
    rw [h3s]
  have hbs3 : r3.session.build_slot = some (i : Int) := by
    rw [h3s]
  obtain ⟨r4, h4eq, h4st, h4sess, sched, hsd, hget, hslot⟩ :=
    on_build_text_success r3.file r3.session u T D (i : Int) hbd3 hbs3 hD
      (Int.ofNat_nonneg i) (by exact_mod_cast hi) hT hne
  refine ⟨r2, r3, r4, h2eq, h2st, h3eq, h3st, h4eq, h4st, ?_⟩
  rw [hget]
  simpa using hslot

/-- Witness for C7: user 1, an absent store, day wednesday, slot 3,
text "Math". -/
theorem build_flow_witness :
    ("wednesday" ∈ WEEKDAYS ∧ 3 < PAIR_COUNT ∧ pyStrip "Math" = "Math" ∧
      "Math" ≠ "") ∧
    ((on_menu_click FileState.absent ⟨none, none, none, none⟩ "menu:build").state =
      STATE_BUILD_DAY ∧
    ∃ r2 r3 r4,
      on_build_day
        (on_menu_click FileState.absent ⟨none, none, none, none⟩ "menu:build").file
        (on_menu_click FileState.absent ⟨none, none, none, none⟩ "menu:build").session
        1 ("buildday:" ++ "wednesday") = some r2 ∧
      r2.state = STATE_BUILD_SLOT ∧
      on_build_slot r2.file r2.session
        ("buildslot:" ++ "wednesday" ++ ":" ++ toString 3) = some r3 ∧
      r3.state = STATE_BUILD_TEXT ∧
      on_build_text r3.file r3.session 1 "Math" = some r4 ∧
      r4.state = STATE_MENU ∧
      getSlot (get_user_schedule r4.file 1).1 "wednesday" 3 =
        some (JValue.jstr "Math")) :=
  ⟨⟨by decide, by decide, by decide, by decide⟩,
    build_flow FileState.absent ⟨none, none, none, none⟩ 1 "wednesday" 3 "Math"
      (by decide) (by decide) (by decide) (by decide)⟩

/-- Counterexample to C7 as stated: submitting `"  x  "` stores the stripped
text `"x"`, so the final slot does not equal the submitted text. -/
theorem build_flow_counterexample :
    ((on_build_day
        (on_menu_click FileState.absent ⟨none, none, none, none⟩ "menu:build").file
        (on_menu_click FileState.absent ⟨none, none, none, none⟩ "menu:build").session
        1 "buildday:monday").bind fun r2 =>
      (on_build_slot r2.file r2.session "buildslot:monday:0").bind fun r3 =>
        (on_build_text r3.file r3.session 1 "  x  ").map fun r4 =>
          getSlot (get_user_schedule r4.file 1).1 "monday" 0) =
      some (some (JValue.jstr "x")) ∧
    JValue.jstr "x" ≠ JValue.jstr "  x  " := by
  constructor
  · decide
  · decide

